import Mathlib

/-!
Shallow embedding of the inventory-management application (`src/app.py`).

The application is a Flask CRUD layer over two SQLite tables
(`users`, `products`).  We model each table as a Lean list of rows, each
route handler's core logic as a pure function on that state, and the SQL
statements the handlers issue (`INSERT`, `UPDATE ... WHERE id`,
`DELETE ... WHERE id`, `SELECT ... WHERE id` + `fetchone`, the aggregate
queries of the dashboard, `ORDER BY created_at DESC`) by their list
semantics.  `REAL` prices are embedded as rationals, `INTEGER` quantities
as integers, timestamps as naturals.
-/

/-- Modelled from Python `str.strip()` as used in `app.py` (`.strip()` on form
fields): drop leading and trailing whitespace characters. -/
def pyStrip (s : String) : String :=
  ⟨((s.data.dropWhile Char.isWhitespace).reverse.dropWhile Char.isWhitespace).reverse⟩

/-- Value of a list of decimal digit characters. -/
def digitsToNat (ds : List Char) : Nat :=
  ds.foldl (fun a c => a * 10 + (c.toNat - Char.toNat '0')) 0

/-- Optional leading sign of a numeric literal: returns (isNegative, rest). -/
def parseSign : List Char → Bool × List Char
  | '-' :: rest => (true, rest)
  | '+' :: rest => (false, rest)
  | cs => (false, cs)

/-- Modelled from Python `int(str)` as used in `app.py` (`int(quantity)`):
optional surrounding whitespace, optional sign, then decimal digits.
Returns `none` exactly when Python raises `ValueError`. -/
def pyInt? (s : String) : Option Int :=
  let sc := parseSign (pyStrip s).data
  if sc.2 ≠ [] ∧ sc.2.all Char.isDigit then
    some (if sc.1 then -(digitsToNat sc.2 : Int) else (digitsToNat sc.2 : Int))
  else none

/-- Modelled from Python `float(str)` as used in `app.py` (`float(price)`),
restricted to finite decimal literals: optional surrounding whitespace,
optional sign, digits with an optional fractional part.  The IEEE special
forms (`inf`, `nan`) and exponent notation fall outside this rational
embedding and are not modelled.  Returns `none` when Python raises
`ValueError` on the modelled grammar. -/
def pyFloat? (s : String) : Option Rat :=
  let sc := parseSign (pyStrip s).data
  let ip := sc.2.takeWhile (fun c => c != '.')
  match sc.2.dropWhile (fun c => c != '.') with
  | [] =>
    if ip ≠ [] ∧ ip.all Char.isDigit then
      some (if sc.1 then -(digitsToNat ip : Rat) else (digitsToNat ip : Rat))
    else none
  | _ :: frac =>
    if (ip ≠ [] ∨ frac ≠ []) ∧ ip.all Char.isDigit ∧ frac.all Char.isDigit then
      let v : Rat := (digitsToNat ip : Rat) + (digitsToNat frac : Rat) / ((10 : Rat) ^ frac.length)
      some (if sc.1 then -v else v)
    else none

/-- A row of the `products` table (`id INTEGER PRIMARY KEY AUTOINCREMENT,
product_name TEXT, category TEXT, price REAL, quantity INTEGER,
created_at TIMESTAMP`). -/
structure Product where
  id : Nat
  product_name : String
  category : String
  price : Rat
  quantity : Int
  created_at : Nat
deriving DecidableEq, Repr

/-- A row of the `users` table (`id`, `username`, `password` holding the
salted hash produced by `generate_password_hash`). -/
structure UserRow where
  id : Nat
  username : String
  password : String
deriving DecidableEq, Repr

/-- The `products` table together with its `AUTOINCREMENT` counter. -/
structure Store where
  products : List Product
  nextId : Nat
deriving DecidableEq, Repr

/-- The freshly created database: no product rows, autoincrement at 1. -/
def initStore : Store := { products := [], nextId := 1 }

/-- `LOW_STOCK_THRESHOLD = 10` from `app.py`. -/
def LOW_STOCK_THRESHOLD : Int := 10

/-- Outcome of the validation block shared by `add_product` and
`edit_product`: the collected error messages plus the parsed price and
quantity (present when parsing succeeded). -/
structure ValidationOut where
  errors : List String
  price : Option Rat
  quantity : Option Int
deriving DecidableEq, Repr

/-- The `try: price = float(price) ...` step of the validation block. -/
def priceStep (e : List String) (priceStr : String) : List String × Option Rat :=
  match pyFloat? priceStr with
  | some p => (if p < 0 then e ++ ["Price cannot be negative."] else e, some p)
  | none => (e ++ ["Please enter a valid price."], none)

/-- The `try: quantity = int(quantity) ...` step of the validation block. -/
def quantityStep (e : List String) (qtyStr : String) : List String × Option Int :=
  match pyInt? qtyStr with
  | some q => (if q < 0 then e ++ ["Quantity cannot be negative."] else e, some q)
  | none => (e ++ ["Please enter a valid quantity."], none)

/-- The validation block of `add_product`/`edit_product` (lines 194-213 and
260-279 of `app.py`), applied to the already-stripped name and category and
the raw price/quantity form strings; errors are appended in source order. -/
def validateProduct (product_name category priceStr qtyStr : String) : ValidationOut :=
  let e1 : List String := if product_name = "" then ["Product name is required."] else []
  let e2 : List String := if category = "" then e1 ++ ["Category is required."] else e1
  let pr := priceStep e2 priceStr
  let qt := quantityStep pr.1 qtyStr
  { errors := qt.1, price := pr.2, quantity := qt.2 }

/-- Outcome of `add_product` POST. -/
inductive AddResult where
  | validationError (errors : List String)
  | success (product_name : String)
deriving DecidableEq, Repr

/-- The POST branch of `add_product`: strip name and category, validate, and
on success `INSERT INTO products ...` (the new row takes the autoincrement
id and `created_at` defaults to the current time `now`). -/
def addProduct (s : Store) (pnForm catForm priceStr qtyStr : String) (now : Nat) :
    Store × AddResult :=
  let product_name := pyStrip pnForm
  let category := pyStrip catForm
  let v := validateProduct product_name category priceStr qtyStr
  if v.errors ≠ [] then (s, AddResult.validationError v.errors)
  else
    let row : Product :=
      { id := s.nextId, product_name := product_name, category := category,
        price := v.price.getD 0, quantity := v.quantity.getD 0, created_at := now }
    ({ products := s.products ++ [row], nextId := s.nextId + 1 },
     AddResult.success product_name)

/-- Outcome of `edit_product` POST.  The POST branch of `app.py` performs no
existence check: `UPDATE ... WHERE id = ?` simply affects zero rows when the
id is absent and the handler still flashes the success message, so there is
no not-found outcome here. -/
inductive EditResult where
  | validationError (errors : List String)
  | success (product_name : String)
deriving DecidableEq, Repr

/-- The POST branch of `edit_product` (lines 254-294 of `app.py`): strip,
validate, and on success `UPDATE products SET ... WHERE id = ?`, which
rewrites the mutable fields of every row whose id matches and leaves the
rest untouched. -/
def editProduct (s : Store) (id : Nat) (pnForm catForm priceStr qtyStr : String) :
    Store × EditResult :=
  let product_name := pyStrip pnForm
  let category := pyStrip catForm
  let v := validateProduct product_name category priceStr qtyStr
  if v.errors ≠ [] then (s, EditResult.validationError v.errors)
  else
    ({ s with products := s.products.map (fun p =>
        if p.id = id then
          { p with product_name := product_name, category := category,
                   price := v.price.getD 0, quantity := v.quantity.getD 0 }
        else p) },
     EditResult.success product_name)

/-- `SELECT * FROM products WHERE id = ?` followed by `fetchone()`. -/
def getProduct (s : Store) (id : Nat) : Option Product :=
  s.products.find? (fun p => p.id == id)

/-- Outcome of `delete_product`. -/
inductive DeleteResult where
  | notFound
  | success (product_name : String)
deriving DecidableEq, Repr

/-- The `delete_product` handler (lines 323-336 of `app.py`): fetch the name
for the confirmation message, report not-found when the row is absent,
otherwise `DELETE FROM products WHERE id = ?`. -/
def deleteProduct (s : Store) (id : Nat) : Store × DeleteResult :=
  match s.products.find? (fun p => p.id == id) with
  | none => (s, DeleteResult.notFound)
  | some p =>
      ({ s with products := s.products.filter (fun q => q.id != id) },
       DeleteResult.success p.product_name)

/-- Outcome of the `login` POST handler. -/
inductive LoginResult where
  | missingFields
  | authFailure
  | success (user_id : Nat) (username : String)
deriving DecidableEq, Repr

/-- The POST branch of `login` (lines 104-133 of `app.py`): the username is
stripped, the password is used verbatim; empty fields are rejected before
any database access; then `SELECT * FROM users WHERE username = ?` and
`check_password_hash(user[password], password)`.  The hash comparison is a
parameter `check` because `werkzeug`'s salted-hash verification is external
to this repository. -/
def login (users : List UserRow) (check : String → String → Bool)
    (formUsername formPassword : String) : LoginResult :=
  let username := pyStrip formUsername
  let password := formPassword
  if username = "" ∨ password = "" then LoginResult.missingFields
  else
    match users.find? (fun u => u.username == username) with
    | some u =>
        if check u.password password then LoginResult.success u.id u.username
        else LoginResult.authFailure
    | none => LoginResult.authFailure

/-- The admin-seeding step shared by `init_db` (INSERT OR IGNORE on the
unique `username` column) and the `create_admin` route (explicit existence
check then INSERT): insert an `admin` row only when none exists.  The hash
of `admin123` is a parameter because `generate_password_hash` salts
randomly. -/
def ensureDefaultAdmin (users : List UserRow) (hashedPassword : String) (newId : Nat) :
    List UserRow :=
  if users.any (fun u => u.username == "admin") then users
  else users ++ [{ id := newId, username := "admin", password := hashedPassword }]

/-- Number of `admin` rows in the users table. -/
def countAdmin (users : List UserRow) : Nat :=
  users.countP (fun u => u.username == "admin")

/-- The dashboard aggregates, as computed row by row in the order SQLite
would: `COUNT(*)`, `COALESCE(SUM(quantity), 0)`, and
`COUNT(*) ... WHERE quantity < LOW_STOCK_THRESHOLD`. -/
structure Stats where
  total_products : Nat
  total_stock : Int
  low_stock_count : Nat
deriving DecidableEq, Repr

/-- The statistics queries of `dashboard` (lines 162-169 of `app.py`),
embedded as folds over the product rows. -/
def dashboardStats (s : Store) : Stats :=
  { total_products := s.products.foldl (fun acc _ => acc + 1) 0,
    total_stock := s.products.foldl (fun acc p => acc + p.quantity) 0,
    low_stock_count :=
      s.products.foldl
        (fun acc p => if p.quantity < LOW_STOCK_THRESHOLD then acc + 1 else acc) 0 }

/-- `SELECT * FROM products ORDER BY created_at DESC` from `dashboard`:
all rows, newest `created_at` first. -/
def listAll (s : Store) : List Product :=
  s.products.insertionSort (fun a b => b.created_at ≤ a.created_at)

/-- The low-stock marking loop of `dashboard` (lines 172-173 of `app.py`):
each listed product paired with its derived `is_low_stock` flag. -/
def dashboardProducts (s : Store) : List (Product × Bool) :=
  (listAll s).map (fun p => (p, decide (p.quantity < LOW_STOCK_THRESHOLD)))

/-- States of the product store reachable from the fresh database by any
sequence of `add_product`, `edit_product` and `delete_product` requests. -/
inductive Reachable : Store → Prop
  | init : Reachable initStore
  | add : ∀ (s : Store) (pn cat pr qty : String) (now : Nat),
      Reachable s → Reachable (addProduct s pn cat pr qty now).1
  | edit : ∀ (s : Store) (id : Nat) (pn cat pr qty : String),
      Reachable s → Reachable (editProduct s id pn cat pr qty).1
  | del : ∀ (s : Store) (id : Nat),
      Reachable s → Reachable (deleteProduct s id).1

/-- When the price step reports no errors, the incoming error list was empty
and the price parsed to a non-negative rational. -/
lemma priceStep_nil (e : List String) (ps : String) (h : (priceStep e ps).1 = []) :
    e = [] ∧ ∃ x, (priceStep e ps).2 = some x ∧ 0 ≤ x := by
  unfold priceStep at h ⊢
  cases hp : pyFloat? ps with
  | none => rw [hp] at h; simp at h
  | some p =>
      rw [hp] at h
      dsimp only at h
      by_cases hneg : p < 0
      · simp [hneg] at h
      · rw [if_neg hneg] at h
        exact ⟨h, ⟨p, rfl, le_of_not_lt hneg⟩⟩

/-- When the quantity step reports no errors, the incoming error list was
empty and the quantity parsed to a non-negative integer. -/
lemma quantityStep_nil (e : List String) (qs : String) (h : (quantityStep e qs).1 = []) :
    e = [] ∧ ∃ n, (quantityStep e qs).2 = some n ∧ 0 ≤ n := by
  unfold quantityStep at h ⊢
  cases hq : pyInt? qs with
  | none => rw [hq] at h; simp at h
  | some q =>
      rw [hq] at h
      dsimp only at h
      by_cases hneg : q < 0
      · simp [hneg] at h
      · rw [if_neg hneg] at h
        exact ⟨h, ⟨q, rfl, le_of_not_lt hneg⟩⟩

/-- A submission that passes validation carries a parsed non-negative price
and a parsed non-negative quantity. -/
lemma validateProduct_ok (pn cat ps qs : String)
    (h : (validateProduct pn cat ps qs).errors = []) :
    (∃ x, (validateProduct pn cat ps qs).price = some x ∧ 0 ≤ x) ∧
    (∃ n, (validateProduct pn cat ps qs).quantity = some n ∧ 0 ≤ n) := by
  unfold validateProduct at h ⊢
  obtain ⟨hpr, hq⟩ := quantityStep_nil _ _ h
  obtain ⟨_, hp⟩ := priceStep_nil _ _ hpr
  exact ⟨hp, hq⟩

/-- C2: every state of the product store reachable by any sequence of
insert, update and delete requests from the fresh database keeps
`price >= 0` and `quantity >= 0` for every stored row; the validation
boundary stops any submission whose price or quantity would violate it. -/
theorem stored_rows_nonneg (s : Store) (h : Reachable s) :
    ∀ p ∈ s.products, 0 ≤ p.price ∧ 0 ≤ p.quantity := by
  induction h with
  | init => intro p hp; simp [initStore] at hp
  | add s pn cat pr qty now _ ih =>
      intro p hp
      simp only [addProduct] at hp
      by_cases he : (validateProduct (pyStrip pn) (pyStrip cat) pr qty).errors ≠ []
      · rw [if_pos he] at hp
        exact ih p hp
      · rw [if_neg he] at hp
        push_neg at he
        obtain ⟨⟨x, hx, hx0⟩, ⟨n, hn, hn0⟩⟩ := validateProduct_ok _ _ _ _ he
        simp only [List.mem_append, List.mem_singleton] at hp
        rcases hp with hp | rfl
        · exact ih p hp
        · constructor
          · show 0 ≤ (validateProduct (pyStrip pn) (pyStrip cat) pr qty).price.getD 0
            rw [hx]; exact hx0
          · show 0 ≤ (validateProduct (pyStrip pn) (pyStrip cat) pr qty).quantity.getD 0
            rw [hn]; exact hn0
  | edit s id pn cat pr qty _ ih =>
      intro p hp
      simp only [editProduct] at hp
      by_cases he : (validateProduct (pyStrip pn) (pyStrip cat) pr qty).errors ≠ []
      · rw [if_pos he] at hp
        exact ih p hp
      · rw [if_neg he] at hp
        push_neg at he
        obtain ⟨⟨x, hx, hx0⟩, ⟨n, hn, hn0⟩⟩ := validateProduct_ok _ _ _ _ he
        simp only [List.mem_map] at hp
        obtain ⟨q, hq, rfl⟩ := hp
        by_cases hid : q.id = id
        · simp only [hid, if_true]
          constructor
          · show 0 ≤ (validateProduct (pyStrip pn) (pyStrip cat) pr qty).price.getD 0
            rw [hx]; exact hx0
          · show 0 ≤ (validateProduct (pyStrip pn) (pyStrip cat) pr qty).quantity.getD 0
            rw [hn]; exact hn0
        · simp only [hid, if_false]
          exact ih q hq
  | del s id _ ih =>
      intro p hp
      simp only [deleteProduct] at hp
      cases hf : s.products.find? (fun q => q.id == id) with
      | none => rw [hf] at hp; exact ih p hp
      | some q =>
          rw [hf] at hp
          simp only [List.mem_filter] at hp
          exact ih p hp.1

/-- Concrete reachable state used to instantiate the invariant theorem. -/
def sampleStore : Store := (addProduct initStore "Aspirin" "Pharmacy" "4" "5" 0).1

/-- The row stored by the sample insertion. -/
def sampleRow : Product :=
  { id := 1, product_name := "Aspirin", category := "Pharmacy",
    price := 4, quantity := 5, created_at := 0 }

/-- Witness for C2 at a concrete reachable store. -/
theorem stored_rows_nonneg_witness : 0 ≤ sampleRow.price ∧ 0 ≤ sampleRow.quantity :=
  stored_rows_nonneg sampleStore
    (Reachable.add initStore "Aspirin" "Pharmacy" "4" "5" 0 Reachable.init)
    sampleRow (by decide)

/-- The row-counting fold of the dashboard computes the list length. -/
lemma foldl_count_rows (l : List Product) (n : Nat) :
    l.foldl (fun acc _ => acc + 1) n = n + l.length := by
  induction l generalizing n with
  | nil => simp
  | cons a t ih => rw [List.foldl_cons, ih]; simp [List.length_cons]; omega

/-- The quantity-summing fold of the dashboard computes the sum of
quantities (0 on the empty table, as `COALESCE(SUM(quantity), 0)` does). -/
lemma foldl_sum_quantity (l : List Product) (n : Int) :
    l.foldl (fun acc p => acc + p.quantity) n = n + (l.map (fun p => p.quantity)).sum := by
  induction l generalizing n with
  | nil => simp
  | cons a t ih => rw [List.foldl_cons, ih]; simp [List.map_cons, List.sum_cons]; ring

/-- The low-stock-counting fold of the dashboard counts the rows with
quantity below the threshold. -/
lemma foldl_low_count (l : List Product) (n : Nat) :
    l.foldl (fun acc p => if p.quantity < LOW_STOCK_THRESHOLD then acc + 1 else acc) n
      = n + l.countP (fun p => decide (p.quantity < 10)) := by
  induction l generalizing n with
  | nil => simp
  | cons a t ih =>
      rw [List.foldl_cons, List.countP_cons]
      by_cases h : a.quantity < 10
      · rw [if_pos (show a.quantity < LOW_STOCK_THRESHOLD from h), ih, decide_eq_true h,
           if_pos rfl]
        omega
      · rw [if_neg (show ¬a.quantity < LOW_STOCK_THRESHOLD from h), ih, decide_eq_false h,
           if_neg (by simp)]
        omega

/-- C5: for every state of the product store, the dashboard statistics give
the number of stored rows, the sum of quantities over all rows (0 when the
table is empty), and the number of rows with quantity strictly below 10;
every listed product carries the read-time flag `quantity < 10`. -/
theorem dashboard_stats_spec (s : Store) :
    (dashboardStats s).total_products = s.products.length ∧
    (dashboardStats s).total_stock = (s.products.map (fun p => p.quantity)).sum ∧
    (dashboardStats s).low_stock_count = s.products.countP (fun p => decide (p.quantity < 10)) ∧
    (dashboardProducts s).all (fun x => x.2 == decide (x.1.quantity < 10)) = true := by
  refine ⟨?_, ?_, ?_, ?_⟩
  · simpa using foldl_count_rows s.products 0
  · simpa using foldl_sum_quantity s.products 0
  · simpa using foldl_low_count s.products 0
  · simp only [dashboardProducts, List.all_eq_true, List.mem_map]
    rintro ⟨p, b⟩ ⟨q, _, hq⟩
    obtain ⟨rfl, rfl⟩ : q = p ∧ decide (q.quantity < LOW_STOCK_THRESHOLD) = b :=
      ⟨congrArg Prod.fst hq, congrArg Prod.snd hq⟩
    simp [LOW_STOCK_THRESHOLD]

/-- C9: the dashboard listing returns exactly the stored products, ordered
by `created_at` descending (newest first). -/
theorem list_all_newest_first (s : Store) :
    List.Perm (listAll s) s.products ∧
    (listAll s).Pairwise (fun a b => b.created_at ≤ a.created_at) := by
  constructor
  · exact List.perm_insertionSort _ s.products
  · haveI h1 : IsTotal Product (fun a b => b.created_at ≤ a.created_at) :=
      ⟨fun a b => Nat.le_total b.created_at a.created_at⟩
    haveI h2 : IsTrans Product (fun a b => b.created_at ≤ a.created_at) :=
      ⟨fun _ _ _ hab hbc => Nat.le_trans hbc hab⟩
    exact List.sorted_insertionSort _ s.products

/-- C6: seeding the default admin is idempotent: a second run changes
nothing, existing rows are never overwritten (the original table is an
unchanged initial segment of the result), and any run starting from a table
respecting the UNIQUE username constraint leaves exactly one admin row. -/
theorem ensure_default_admin_idempotent (users : List UserRow) (h1 h2 : String) (n1 n2 : Nat)
    (huniq : countAdmin users ≤ 1) :
    ensureDefaultAdmin (ensureDefaultAdmin users h1 n1) h2 n2 = ensureDefaultAdmin users h1 n1 ∧
    (ensureDefaultAdmin users h1 n1).take users.length = users ∧
    countAdmin (ensureDefaultAdmin users h1 n1) = 1 := by
  by_cases hex : users.any (fun u => u.username == "admin") = true
  · have hinner : ensureDefaultAdmin users h1 n1 = users := by
      rw [ensureDefaultAdmin, if_pos hex]
    have houter : ensureDefaultAdmin users h2 n2 = users := by
      rw [ensureDefaultAdmin, if_pos hex]
    rw [hinner, houter]
    refine ⟨rfl, List.take_length users, ?_⟩
    obtain ⟨u, hu, hadm⟩ := List.any_eq_true.mp hex
    have hpos : 0 < countAdmin users :=
      List.countP_pos_iff.mpr ⟨u, hu, hadm⟩
    omega
  · have hinner : ensureDefaultAdmin users h1 n1 =
        users ++ [{ id := n1, username := "admin", password := h1 }] := by
      rw [ensureDefaultAdmin, if_neg hex]
    have hzero : countAdmin users = 0 := by
      rw [countAdmin, List.countP_eq_zero]
      intro u hu
      exact fun hadm => hex (List.any_eq_true.mpr ⟨u, hu, hadm⟩)
    rw [hinner]
    refine ⟨?_, List.take_left users _, ?_⟩
    · rw [ensureDefaultAdmin, if_pos]
      rw [List.any_append]
      simp
    · rw [countAdmin, List.countP_append]
      rw [countAdmin] at hzero
      rw [hzero]
      simp

/-- Witness for C6 on the empty credential table. -/
theorem ensure_default_admin_idempotent_witness :
    ensureDefaultAdmin (ensureDefaultAdmin [] "H1" 1) "H2" 2 = ensureDefaultAdmin [] "H1" 1 ∧
    (ensureDefaultAdmin [] "H1" 1).take (List.length ([] : List UserRow)) = [] ∧
    countAdmin (ensureDefaultAdmin [] "H1" 1) = 1 :=
  ensure_default_admin_idempotent [] "H1" "H2" 1 2 (by decide)

/-- Stated from the spec: the violation reported by the non-empty-name rule
on its own. -/
def nameRule (pn : String) : List String :=
  if pn = "" then ["Product name is required."] else []

/-- Stated from the spec: the violation reported by the non-empty-category
rule on its own. -/
def categoryRule (cat : String) : List String :=
  if cat = "" then ["Category is required."] else []

/-- Stated from the spec: the violation reported by the
parseable-non-negative-price rule on its own. -/
def priceRule (pr : String) : List String :=
  match pyFloat? pr with
  | some p => if p < 0 then ["Price cannot be negative."] else []
  | none => ["Please enter a valid price."]

/-- Stated from the spec: the violation reported by the
parseable-non-negative-integer-quantity rule on its own. -/
def quantityRule (qty : String) : List String :=
  match pyInt? qty with
  | some q => if q < 0 then ["Quantity cannot be negative."] else []
  | none => ["Please enter a valid quantity."]

/-- The price step appends exactly the price rule's violations. -/
lemma priceStep_eq (e : List String) (ps : String) :
    priceStep e ps = (e ++ priceRule ps, pyFloat? ps) := by
  unfold priceStep priceRule
  cases pyFloat? ps with
  | none => rfl
  | some p => by_cases h : p < 0 <;> simp [h]

/-- The quantity step appends exactly the quantity rule's violations. -/
lemma quantityStep_eq (e : List String) (qs : String) :
    quantityStep e qs = (e ++ quantityRule qs, pyInt? qs) := by
  unfold quantityStep quantityRule
  cases pyInt? qs with
  | none => rfl
  | some q => by_cases h : q < 0 <;> simp [h]

/-- C3: one validation pass evaluates all four rules and reports every
violated rule of the submission together — the error list is exactly the
concatenation of the four rules' individual violations, in source order —
and the scenario insert("Bandage", "", -1, "abc") fails with exactly the
three violations empty category, negative price, non-integer quantity. -/
theorem validation_collects_all_violations (pn cat pr qty : String) (s : Store) (now : Nat) :
    (validateProduct pn cat pr qty).errors =
      nameRule pn ++ categoryRule cat ++ priceRule pr ++ quantityRule qty ∧
    addProduct s "Bandage" "" "-1" "abc" now =
      (s, AddResult.validationError
            ["Category is required.", "Price cannot be negative.",
             "Please enter a valid quantity."]) := by
  constructor
  · simp only [validateProduct, priceStep_eq, quantityStep_eq]
    by_cases h1 : pn = "" <;> by_cases h2 : cat = "" <;>
      simp [nameRule, categoryRule, h1, h2, List.append_assoc]
  · have hpn : pyStrip "Bandage" = "Bandage" := by decide
    have hcat : pyStrip "" = "" := rfl
    have hval : validateProduct "Bandage" "" "-1" "abc" =
        { errors := ["Category is required.", "Price cannot be negative.",
                     "Please enter a valid quantity."],
          price := some (-1), quantity := none } := by decide
    simp [addProduct, hpn, hcat, hval]

/-- C4: a login attempt with an unknown username and a login attempt with a
known username but failing hash check produce the very same `AuthFailure`
result — no username-enumeration signal — while a successful attempt
returns only the stored row's id and username, never the hash. -/
theorem login_no_enumeration (users : List UserRow) (check : String → String → Bool)
    (u1 p1 u2 p2 u3 p3 : String) (r2 r3 : UserRow)
    (h1u : pyStrip u1 ≠ "") (h1p : p1 ≠ "")
    (h2u : pyStrip u2 ≠ "") (h2p : p2 ≠ "")
    (h3u : pyStrip u3 ≠ "") (h3p : p3 ≠ "")
    (hnone : users.find? (fun u => u.username == pyStrip u1) = none)
    (hsome : users.find? (fun u => u.username == pyStrip u2) = some r2)
    (hbad : check r2.password p2 = false)
    (hsome3 : users.find? (fun u => u.username == pyStrip u3) = some r3)
    (hgood : check r3.password p3 = true) :
    login users check u1 p1 = LoginResult.authFailure ∧
    login users check u2 p2 = LoginResult.authFailure ∧
    login users check u3 p3 = LoginResult.success r3.id r3.username := by
  refine ⟨?_, ?_, ?_⟩
  · simp only [login]
    rw [if_neg (by simp [h1u, h1p]), hnone]
  · simp only [login]
    rw [if_neg (by simp [h2u, h2p]), hsome]
    simp [hbad]
  · simp only [login]
    rw [if_neg (by simp [h3u, h3p]), hsome3]
    simp [hgood]

/-- The users table seeded with the default admin row, used to instantiate
the login theorems concretely. -/
def adminUsers : List UserRow := [{ id := 1, username := "admin", password := "HASH" }]

/-- A concrete stand-in for the salted hash check, accepting exactly the
default credentials against the stored sample hash. -/
def sampleCheck : String → String → Bool :=
  fun stored given => stored == "HASH" && given == "admin123"

/-- Witness for C4: the spec's three login scenarios, concretely. -/
theorem login_no_enumeration_witness :
    login adminUsers sampleCheck "nosuchuser" "x" = LoginResult.authFailure ∧
    login adminUsers sampleCheck "admin" "wrongpass" = LoginResult.authFailure ∧
    login adminUsers sampleCheck "admin" "admin123" = LoginResult.success 1 "admin" :=
  login_no_enumeration adminUsers sampleCheck "nosuchuser" "x" "admin" "wrongpass"
    "admin" "admin123" { id := 1, username := "admin", password := "HASH" }
    { id := 1, username := "admin", password := "HASH" }
    (by decide) (by decide) (by decide) (by decide) (by decide) (by decide)
    (by decide) (by decide) (by decide) (by decide) (by decide)

/-- A string padded with spaces on both sides is never empty. -/
lemma pad_ne_empty (p : String) : " " ++ p ++ " " ≠ "" := by
  intro h
  have hl := congrArg String.length h
  rw [String.length_append, String.length_append] at hl
  have e1 : " ".length = 1 := rfl
  have e2 : "".length = 0 := rfl
  rw [e1, e2] at hl
  omega

/-- C10: the login handler strips surrounding whitespace from the submitted
username before the lookup (so " admin " behaves exactly as "admin") but
passes the password verbatim (padding a working password with whitespace
turns success into `AuthFailure`), and an attempt with a blank username or
an empty password is rejected as `missingFields` for every credential
table, i.e. before any lookup. -/
theorem login_input_discipline (users : List UserRow) (check : String → String → Bool)
    (u p pw : String) (r : UserRow)
    (hfind : users.find? (fun x => x.username == pyStrip u) = some r)
    (hu : pyStrip u ≠ "") (hp : p ≠ "")
    (hok : check r.password p = true)
    (hws : check r.password (" " ++ p ++ " ") = false) :
    login users check " admin " pw = login users check "admin" pw ∧
    login users check u p = LoginResult.success r.id r.username ∧
    login users check u (" " ++ p ++ " ") = LoginResult.authFailure ∧
    login users check "   " p = LoginResult.missingFields ∧
    login users check u "" = LoginResult.missingFields := by
  refine ⟨?_, ?_, ?_, ?_, ?_⟩
  · have h1 : pyStrip " admin " = "admin" := by decide
    have h2 : pyStrip "admin" = "admin" := by decide
    simp only [login, h1, h2]
  · simp only [login]
    rw [if_neg (by simp [hu, hp]), hfind]
    simp [hok]
  · simp only [login]
    rw [if_neg (by simp [hu, pad_ne_empty p]), hfind]
    simp [hws]
  · have h3 : pyStrip "   " = "" := by decide
    simp [login, h3]
  · simp [login]

/-- Witness for C10 on the seeded admin table. -/
theorem login_input_discipline_witness :
    login adminUsers sampleCheck " admin " "zz" = login adminUsers sampleCheck "admin" "zz" ∧
    login adminUsers sampleCheck " admin " "admin123" = LoginResult.success 1 "admin" ∧
    login adminUsers sampleCheck " admin " (" " ++ "admin123" ++ " ") =
      LoginResult.authFailure ∧
    login adminUsers sampleCheck "   " "admin123" = LoginResult.missingFields ∧
    login adminUsers sampleCheck " admin " "" = LoginResult.missingFields :=
  login_input_discipline adminUsers sampleCheck " admin " "admin123" "zz"
    { id := 1, username := "admin", password := "HASH" }
    (by decide) (by decide) (by decide) (by decide) (by decide)

/-- C7: a submission that passes validation is inserted, and reading the new
autoincrement id back returns a row with exactly the submitted name,
category, parsed price and parsed quantity, whose `created_at` is the time
`now` of the insert call (hence no earlier than it). -/
theorem insert_then_get (s : Store) (pn cat pr qty : String) (now : Nat)
    (hid : ∀ p ∈ s.products, p.id < s.nextId)
    (hv : (validateProduct (pyStrip pn) (pyStrip cat) pr qty).errors = []) :
    (addProduct s pn cat pr qty now).2 = AddResult.success (pyStrip pn) ∧
    getProduct (addProduct s pn cat pr qty now).1 s.nextId =
      some { id := s.nextId, product_name := pyStrip pn, category := pyStrip cat,
             price := ((validateProduct (pyStrip pn) (pyStrip cat) pr qty).price).getD 0,
             quantity := ((validateProduct (pyStrip pn) (pyStrip cat) pr qty).quantity).getD 0,
             created_at := now } := by
  have hcond : ¬ (validateProduct (pyStrip pn) (pyStrip cat) pr qty).errors ≠ [] := by
    simp [hv]
  constructor
  · simp only [addProduct]
    rw [if_neg hcond]
  · simp only [addProduct]
    rw [if_neg hcond]
    simp only [getProduct]
    rw [List.find?_append]
    have hleft : s.products.find? (fun p => p.id == s.nextId) = none := by
      rw [List.find?_eq_none]
      intro x hx
      simp only [beq_iff_eq]
      exact Nat.ne_of_lt (hid x hx)
    rw [hleft]
    simp

/-- Witness for C7: inserting into the fresh store and reading id 1 back. -/
theorem insert_then_get_witness :
    (addProduct initStore "Gauze" "Pharmacy" "1" "50" 99).2 =
      AddResult.success (pyStrip "Gauze") ∧
    getProduct (addProduct initStore "Gauze" "Pharmacy" "1" "50" 99).1 initStore.nextId =
      some { id := initStore.nextId, product_name := pyStrip "Gauze",
             category := pyStrip "Pharmacy",
             price := ((validateProduct (pyStrip "Gauze") (pyStrip "Pharmacy") "1" "50").price).getD 0,
             quantity := ((validateProduct (pyStrip "Gauze") (pyStrip "Pharmacy") "1" "50").quantity).getD 0,
             created_at := 99 } :=
  insert_then_get initStore "Gauze" "Pharmacy" "1" "50" 99 (by decide) (by decide)

/-- With unique ids, removing all rows matching the found id removes exactly
the found row. -/
lemma filter_erase_of_find? (l : List Product) (i : Nat) (p : Product)
    (hnd : (l.map (fun x => x.id)).Nodup)
    (hf : l.find? (fun q => q.id == i) = some p) :
    l.filter (fun q => q.id != i) = l.erase p := by
  induction l with
  | nil => simp at hf
  | cons a t ih =>
      rw [List.map_cons, List.nodup_cons] at hnd
      obtain ⟨hna, hnt⟩ := hnd
      rw [List.find?_cons] at hf
      by_cases ha : a.id = i
      · have hab : (a.id == i) = true := beq_iff_eq.mpr ha
        rw [hab] at hf
        dsimp only at hf
        obtain rfl : a = p := Option.some.inj hf
        rw [List.filter_cons_of_neg (by simp [ha]), List.erase_cons_head]
        apply List.filter_eq_self.mpr
        intro q hq
        have : q.id ≠ a.id := by
          intro he
          exact hna (he ▸ List.mem_map_of_mem (fun x => x.id) hq)
        simp [bne_iff_ne, ha ▸ this]
      · have hab : (a.id == i) = false := beq_eq_false_iff_ne.mpr ha
        rw [hab] at hf
        dsimp only at hf
        have hpi : p.id = i := by simpa using List.find?_some hf
        have hap : ¬ (a == p) = true := by
          intro h
          have : a.id = i := by rw [eq_of_beq h]; exact hpi
          exact ha this
        rw [List.filter_cons_of_pos (by simp [bne_iff_ne, ha]),
            List.erase_cons_tail hap, ih hnt hf]

/-- After removing every row with the given id, a lookup of that id finds
nothing. -/
lemma find?_filter_ne_none (l : List Product) (i : Nat) :
    (l.filter (fun q => q.id != i)).find? (fun q => q.id == i) = none := by
  rw [List.find?_eq_none]
  intro x hx
  have hne := (List.mem_filter.mp hx).2
  rw [bne_iff_ne] at hne
  simp [hne]

/-- C8: deleting an existing id removes exactly that row and reports the
deleted product's name; deleting an absent id reports not-found and leaves
the store unchanged; and in all cases a lookup of the id after the delete
yields nothing. -/
theorem delete_spec (s : Store) (id : Nat) (p : Product)
    (hnd : (s.products.map (fun x => x.id)).Nodup) :
    (getProduct s id = none → deleteProduct s id = (s, DeleteResult.notFound)) ∧
    (getProduct s id = some p →
       (deleteProduct s id).2 = DeleteResult.success p.product_name ∧
       (deleteProduct s id).1.products = s.products.erase p) ∧
    getProduct (deleteProduct s id).1 id = none := by
  refine ⟨?_, ?_, ?_⟩
  · intro h
    rw [getProduct] at h
    simp only [deleteProduct]
    rw [h]
  · intro h
    rw [getProduct] at h
    simp only [deleteProduct]
    rw [h]
    exact ⟨rfl, filter_erase_of_find? s.products id p hnd h⟩
  · simp only [deleteProduct, getProduct]
    cases hf : s.products.find? (fun q => q.id == id) with
    | none => exact hf
    | some q => exact find?_filter_ne_none s.products id

/-- Concrete one-row store used to instantiate the delete theorem. -/
def deleteSampleStore : Store :=
  { products := [{ id := 1, product_name := "A", category := "B",
                   price := 2, quantity := 3, created_at := 4 }],
    nextId := 2 }

/-- The single row of `deleteSampleStore`. -/
def deleteSampleRow : Product :=
  { id := 1, product_name := "A", category := "B",
    price := 2, quantity := 3, created_at := 4 }

/-- Witness for C8 on the one-row store. -/
theorem delete_spec_witness :
    (deleteProduct deleteSampleStore 1).2 = DeleteResult.success "A" ∧
    getProduct (deleteProduct deleteSampleStore 1).1 1 = none :=
  ⟨((delete_spec deleteSampleStore 1 deleteSampleRow (by decide)).2.1 (by decide)).1,
   (delete_spec deleteSampleStore 1 deleteSampleRow (by decide)).2.2⟩

/-- C1 counterexample: on the fresh store no row with id 1 exists, yet
updating id 1 with a valid payload does not fail with a not-found error —
the handler leaves the store unchanged and reports success, refuting that
update fails `NotFound` on a missing id and reports success only when a row
with that id existed. -/
theorem edit_missing_id_reports_success :
    getProduct initStore 1 = none ∧
    editProduct initStore 1 "X" "C" "5" "5" = (initStore, EditResult.success "X") :=
  ⟨rfl, by decide⟩

/-- C1 (amended): an update whose payload passes validation always reports
success; when no row with the id exists the store is left unchanged (and no
not-found failure is raised), and when a row with the id exists all its
mutable fields are replaced by the submitted values. -/
theorem edit_product_amended (s : Store) (id : Nat) (pn cat pr qty : String)
    (hv : (validateProduct (pyStrip pn) (pyStrip cat) pr qty).errors = []) :
    (editProduct s id pn cat pr qty).2 = EditResult.success (pyStrip pn) ∧
    (getProduct s id = none →
       editProduct s id pn cat pr qty = (s, EditResult.success (pyStrip pn))) ∧
    (∀ q ∈ s.products, q.id = id →
       { q with product_name := pyStrip pn, category := pyStrip cat,
                price := ((validateProduct (pyStrip pn) (pyStrip cat) pr qty).price).getD 0,
                quantity := ((validateProduct (pyStrip pn) (pyStrip cat) pr qty).quantity).getD 0 }
         ∈ (editProduct s id pn cat pr qty).1.products) := by
  have hcond : ¬ (validateProduct (pyStrip pn) (pyStrip cat) pr qty).errors ≠ [] := by
    simp [hv]
  refine ⟨?_, ?_, ?_⟩
  · simp only [editProduct]
    rw [if_neg hcond]
  · intro h
    rw [getProduct] at h
    simp only [editProduct]
    rw [if_neg hcond]
    have hnone : ∀ q ∈ s.products, ¬ q.id = id := by
      intro q hq
      have := List.find?_eq_none.mp h q hq
      simpa using this
    have hmap : s.products.map (fun p =>
        if p.id = id then
          { p with product_name := pyStrip pn, category := pyStrip cat,
                   price := ((validateProduct (pyStrip pn) (pyStrip cat) pr qty).price).getD 0,
                   quantity := ((validateProduct (pyStrip pn) (pyStrip cat) pr qty).quantity).getD 0 }
        else p) = s.products := by
      have hcong := List.map_congr_left
        (fun a ha => by simp [hnone a ha] :
          ∀ a ∈ s.products, (fun p =>
            if p.id = id then
              { p with product_name := pyStrip pn, category := pyStrip cat,
                       price := ((validateProduct (pyStrip pn) (pyStrip cat) pr qty).price).getD 0,
                       quantity := ((validateProduct (pyStrip pn) (pyStrip cat) pr qty).quantity).getD 0 }
            else p) a = (fun a => a) a)
      rw [hcong, List.map_id']
    rw [hmap]
  · intro q hq hqid
    simp only [editProduct]
    rw [if_neg hcond]
    have hmem := List.mem_map_of_mem (fun p =>
      if p.id = id then
        { p with product_name := pyStrip pn, category := pyStrip cat,
                 price := ((validateProduct (pyStrip pn) (pyStrip cat) pr qty).price).getD 0,
                 quantity := ((validateProduct (pyStrip pn) (pyStrip cat) pr qty).quantity).getD 0 }
      else p) hq
    dsimp only at hmem
    rw [if_pos hqid] at hmem
    exact hmem

/-- Witness for the amended C1: a valid update of the absent id 7 on the
fresh store reports success and changes nothing. -/
theorem edit_product_amended_witness :
    editProduct initStore 7 "Mask" "Safety" "2" "6" =
      (initStore, EditResult.success (pyStrip "Mask")) :=
  (edit_product_amended initStore 7 "Mask" "Safety" "2" "6" (by decide)).2.1 (by decide)
